import Mathlib

/-!
# Shapes sandbox: a verification development of `source/main.cpp`

The simulation core of the program (`Shape::move`, the key callback
`glfw_onKeyPressed`, `DefaultCollisionResolver::resolveCollisions` and
`Sandbox::update`) is embedded shallowly.

* `float` is IEEE-754 binary32 (`F32`): 24 significant bits, exponents of the
  unit in the last place from -149 to 104, round to nearest with ties to even,
  overflow to an infinity, NaN for the invalid operations. The two zeros are
  one value. Every arithmetic operation is rounded on its own, as the C++
  abstract machine does without contraction of `a + b * c`. The call `sqrt` is
  the correctly rounded square root (computed in `double` and narrowed to
  `float` it gives the same value).
* A `Shape` stores finite values, as rationals. The intermediate results of
  `move` and of the collision test are `F32` values and may be infinite;
  `move_stores_finite` shows that what `move` stores back is always finite.
* `std::vector<Shape>` is a `List Shape`; an in-place mutation is a function
  returning the new list.
* `rand()` is external: every call is an arbitrary natural number handed to the
  model as an input (`Draws`), and `RAND_MAX` is a parameter.
-/

namespace SimulationSandbox

/-! ## Constants -/

/-- The constant `WIDTH` of the source. -/
def WIDTH : Int := 800

/-- The constant `HEIGHT` of the source. -/
def HEIGHT : Int := 600

/-- The constant `MIN_SHAPES` of the source. -/
def MIN_SHAPES : Int := 100

/-! ## Binary32 arithmetic -/

/-- A value of type `float`: a finite number, an infinity or NaN. -/
inductive F32 where
  | fin (q : ℚ)
  | pinf
  | ninf
  | nan
deriving DecidableEq

/-- The rational `2 ^ e`. -/
def pow2 (e : Int) : ℚ := (2 : ℚ) ^ e

/-- The exponent `u` of the unit in the last place of a positive magnitude: the
largest `u` in `[-148, 104]` with `2 ^ (u + 23)` at most the magnitude, and
`-149` (the subnormal spacing) when there is none. The magnitude is given by
the test `le t`, "`t` is at most the magnitude"; the search starts at
`u = k - 149`. -/
def ulpExpBy (le : ℚ → Bool) : Nat → Int
  | 0 => -149
  | k + 1 => if le (pow2 ((k : Int) - 125)) then (k : Int) - 148 else ulpExpBy le k

/-- Round a non-negative rational to the nearest integer, ties to even. -/
def roundHalfEven (x : ℚ) : Int :=
  let n := ⌊x⌋
  let r := x - n
  if r < 1 / 2 then n else if 1 / 2 < r then n + 1 else if n % 2 = 0 then n else n + 1

/-- The value `n * 2 ^ u` as a `float`: finite below `2 ^ 128`, else overflow. -/
def pack (n : Int) (u : Int) : F32 :=
  if (n : ℚ) * pow2 u < pow2 128 then F32.fin ((n : ℚ) * pow2 u) else F32.pinf

/-- Rounding of a positive rational to binary32. -/
def roundMag (q : ℚ) : F32 :=
  let u := ulpExpBy (fun t => decide (t ≤ q)) 253
  pack (roundHalfEven (q / pow2 u)) u

/-- Negation: it flips the sign and is exact. -/
def F32.neg : F32 → F32
  | fin q => fin (-q)
  | pinf => ninf
  | ninf => pinf
  | nan => nan

/-- Rounding of a rational to binary32, round to nearest, ties to even. -/
def round32 (q : ℚ) : F32 :=
  if q = 0 then F32.fin 0 else if 0 < q then roundMag q else (roundMag (-q)).neg

/-- The integer square root by bits: with `r = 0` the largest `m < 2 ^ k` with
`m * m ≤ n`. -/
def isqrtAux (n : Nat) : Nat → Nat → Nat
  | 0, r => r
  | k + 1, r =>
    if (r + 2 ^ k) * (r + 2 ^ k) ≤ n then isqrtAux n k (r + 2 ^ k) else isqrtAux n k r

/-- The square root of a positive rational, correctly rounded to binary32: `n0`
is the square root truncated to a multiple of the unit in the last place, and
the comparison with the square of the midpoint decides the rounding. -/
def sqrtMag (q : ℚ) : F32 :=
  let u := ulpExpBy (fun t => decide (t * t ≤ q)) 253
  let x := q / pow2 (2 * u)
  let n0 : Int := (isqrtAux ⌊x⌋.toNat 25 0 : Nat)
  let m2 : ℚ := ((2 * n0 + 1 : Int) : ℚ) * ((2 * n0 + 1 : Int) : ℚ) / 4
  let n : Int :=
    if x < m2 then n0 else if m2 < x then n0 + 1 else if n0 % 2 = 0 then n0 else n0 + 1
  pack n u

/-- The function `sqrt` on `float`. -/
def F32.sqrt : F32 → F32
  | fin q => if q < 0 then nan else if q = 0 then fin 0 else sqrtMag q
  | pinf => pinf
  | ninf => nan
  | nan => nan

/-- The operator `+` on `float`. -/
def F32.add : F32 → F32 → F32
  | fin a, fin b => round32 (a + b)
  | nan, _ => nan
  | _, nan => nan
  | pinf, ninf => nan
  | ninf, pinf => nan
  | pinf, _ => pinf
  | _, pinf => pinf
  | ninf, _ => ninf
  | _, ninf => ninf

/-- The operator `-` on `float`: `a - b` is `a + (-b)`. -/
def F32.sub (a b : F32) : F32 := a.add b.neg

/-- The sign of a value: 1, -1, or 0 for a zero and for NaN. -/
def F32.sign : F32 → Int
  | fin q => if 0 < q then 1 else if q < 0 then -1 else 0
  | pinf => 1
  | ninf => -1
  | nan => 0

/-- The operator `*` on `float`; an infinity times a zero is NaN. -/
def F32.mul : F32 → F32 → F32
  | fin a, fin b => round32 (a * b)
  | nan, _ => nan
  | _, nan => nan
  | a, b =>
    if a.sign * b.sign = 0 then nan else if 0 < a.sign * b.sign then pinf else ninf

/-- The operator `/` on `float`, the zeros taken as positive. -/
def F32.div : F32 → F32 → F32
  | fin a, fin b =>
    if b = 0 then (if a = 0 then nan else if 0 < a then pinf else ninf) else round32 (a / b)
  | nan, _ => nan
  | _, nan => nan
  | fin _, _ => fin 0
  | pinf, fin b => if 0 ≤ b then pinf else ninf
  | ninf, fin b => if 0 ≤ b then ninf else pinf
  | _, _ => nan

/-- The operator `<` on `float`; false when an operand is NaN. -/
def F32.lt : F32 → F32 → Bool
  | fin a, fin b => decide (a < b)
  | nan, _ => false
  | _, nan => false
  | ninf, ninf => false
  | ninf, _ => true
  | _, ninf => false
  | pinf, _ => false
  | _, pinf => true

/-- The function `std::max(a, b)`: `(a < b) ? b : a`. -/
def F32.max (a b : F32) : F32 := if a.lt b then b else a

/-- The function `std::min(a, b)`: `(b < a) ? b : a`. -/
def F32.min (a b : F32) : F32 := if b.lt a then b else a

/-- The conversion of an `int` to `float`. -/
def F32.ofInt (n : Int) : F32 := round32 (n : ℚ)

/-- The rational stored in a field of a `Shape` for a finite value (and 0 for an
infinity or NaN, which no operation of the core ever stores). -/
def F32.toRat : F32 → ℚ
  | fin q => q
  | _ => 0

/-! ## Shape -/

/-- The record `Shape` of the source: position, velocity, size and colour, all
finite `float` values. -/
structure Shape where
  x : ℚ
  y : ℚ
  dx : ℚ
  dy : ℚ
  size : ℚ
  r : ℚ
  g : ℚ
  b : ℚ
deriving DecidableEq

/-- The method `Shape::move`: `x1`, `y1` are the coordinates after the two
statements `x += dx * dt; y += dy * dt;`, `hitX` and `hitY` are the conditions
of the two `if` statements, first x and then y. The `int` operands `0` and `-1`
convert to the `float` values 0 and -1, and `WIDTH`, `HEIGHT` to `float` by
`F32.ofInt`; `x > WIDTH` is `WIDTH < x`. -/
def Shape.move (s : Shape) (dt : ℚ) : Shape :=
  let x1 : F32 := (F32.fin s.x).add ((F32.fin s.dx).mul (F32.fin dt))
  let y1 : F32 := (F32.fin s.y).add ((F32.fin s.dy).mul (F32.fin dt))
  let hitX : Bool := x1.lt (F32.fin 0) || (F32.ofInt WIDTH).lt x1
  let dx2 : F32 := if hitX then (F32.fin s.dx).mul (F32.fin (-1)) else F32.fin s.dx
  let x2 : F32 := if hitX then F32.max (F32.fin 0) (F32.min (F32.ofInt WIDTH) x1) else x1
  let hitY : Bool := y1.lt (F32.fin 0) || (F32.ofInt HEIGHT).lt y1
  let dy2 : F32 := if hitY then (F32.fin s.dy).mul (F32.fin (-1)) else F32.fin s.dy
  let y2 : F32 := if hitY then F32.max (F32.fin 0) (F32.min (F32.ofInt HEIGHT) y1) else y1
  { s with x := x2.toRat, y := y2.toRat, dx := dx2.toRat, dy := dy2.toRat }

/-! ## Spawning and the key callback -/

/-- The value `GLFW_RELEASE` of the GLFW header. -/
def GLFW_RELEASE : Int := 0

/-- The value `GLFW_PRESS` of the GLFW header. -/
def GLFW_PRESS : Int := 1

/-- The value `GLFW_REPEAT` of the GLFW header. -/
def GLFW_REPEAT : Int := 2

/-- The value `GLFW_KEY_DOWN` of the GLFW header. -/
def GLFW_KEY_DOWN : Int := 264

/-- The value `GLFW_KEY_UP` of the GLFW header. -/
def GLFW_KEY_UP : Int := 265

/-- The eight results of `rand()` consumed by one `emplace_back`, named after the
constructor argument each one feeds. -/
structure Draws where
  x : Nat
  y : Nat
  dx : Nat
  dy : Nat
  size : Nat
  r : Nat
  g : Nat
  b : Nat

/-- The expression `(rand() % 200) - 100` of both spawn sites, as an `int`. -/
def spawnVelocity (rnd : Nat) : Int := (rnd : Int) % 200 - 100

/-- The shape built by the `emplace_back` of the key callback and of
`Sandbox::run`, from eight results of `rand()`. -/
def spawnShape (RAND_MAX : Nat) (d : Draws) : Shape :=
  { x := (F32.ofInt ((d.x : Int) % WIDTH)).toRat
    y := (F32.ofInt ((d.y : Int) % HEIGHT)).toRat
    dx := (F32.ofInt (spawnVelocity d.dx)).toRat
    dy := (F32.ofInt (spawnVelocity d.dy)).toRat
    size := (F32.ofInt ((d.size : Int) % 20 + 10)).toRat
    r := ((F32.ofInt (d.r : Int)).div (F32.ofInt (RAND_MAX : Int))).toRat
    g := ((F32.ofInt (d.g : Int)).div (F32.ofInt (RAND_MAX : Int))).toRat
    b := ((F32.ofInt (d.b : Int)).div (F32.ofInt (RAND_MAX : Int))).toRat }

/-! ## Collision resolution -/

/-- The collision test of the inner loop body, `a` being `shapes[i]` and `b`
being `shapes[j]`: `distance < minDist`, every operation in binary32. -/
def overlaps (a b : Shape) : Prop :=
  let dx : F32 := (F32.fin b.x).sub (F32.fin a.x)
  let dy : F32 := (F32.fin b.y).sub (F32.fin a.y)
  let distance : F32 := ((dx.mul dx).add (dy.mul dy)).sqrt
  let minDist : F32 := (F32.fin a.size).add (F32.fin b.size)
  distance.lt minDist = true

instance (a b : Shape) : Decidable (overlaps a b) := by
  unfold overlaps
  infer_instance

/-- The statement `std::swap(shapes[i].dx, shapes[j].dx)`. -/
def swapDx (shapes : List Shape) (i j : Nat) : List Shape :=
  match shapes[i]?, shapes[j]? with
  | some a, some b => (shapes.set i { a with dx := b.dx }).set j { b with dx := a.dx }
  | _, _ => shapes

/-- The statement `std::swap(shapes[i].dy, shapes[j].dy)`. -/
def swapDy (shapes : List Shape) (i j : Nat) : List Shape :=
  match shapes[i]?, shapes[j]? with
  | some a, some b => (shapes.set i { a with dy := b.dy }).set j { b with dy := a.dy }
  | _, _ => shapes

/-- The body of the inner loop of `resolveCollisions` for the pair `(i, j)`. -/
def collisionStep (i j : Nat) (shapes : List Shape) : List Shape :=
  match shapes[i]?, shapes[j]? with
  | some a, some b => if overlaps a b then swapDy (swapDx shapes i j) i j else shapes
  | _, _ => shapes

/-- The inner loop `for (; j < shapes.size(); ++j)` of `resolveCollisions`,
entered at `j`. -/
def innerLoop (i j : Nat) (shapes : List Shape) : List Shape :=
  if j < shapes.length then innerLoop i (j + 1) (collisionStep i j shapes) else shapes
termination_by shapes.length - j
decreasing_by
  have hlen : (collisionStep i j shapes).length = shapes.length := by
    unfold collisionStep swapDy swapDx
    repeat (first | split | simp)
  rw [hlen]
  omega

/-- The outer loop `for (; i < shapes.size(); ++i)` of `resolveCollisions`,
entered at `i`. -/
def outerLoop (i : Nat) (shapes : List Shape) : List Shape :=
  if i < shapes.length then outerLoop (i + 1) (innerLoop i (i + 1) shapes) else shapes
termination_by shapes.length - i
decreasing_by
  have hstep : ∀ (a b : Nat) (l : List Shape), (collisionStep a b l).length = l.length := by
    intro a b l
    unfold collisionStep swapDy swapDx
    repeat (first | split | simp)
  have hlen : ∀ (n j : Nat) (l : List Shape), l.length - j = n →
      (innerLoop i j l).length = l.length := by
    intro n
    induction n with
    | zero =>
      intro j l h
      rw [innerLoop, if_neg (by omega)]
    | succ n ih =>
      intro j l h
      rw [innerLoop, if_pos (by omega), ih _ _ (by rw [hstep]; omega), hstep]
  rw [hlen _ _ _ rfl]
  omega

/-- The method `DefaultCollisionResolver::resolveCollisions`. -/
def DefaultCollisionResolver.resolveCollisions (shapes : List Shape) : List Shape :=
  outerLoop 0 shapes

/-- The abstract class `CollisionResolver`: one virtual method. -/
structure CollisionResolver where
  resolveCollisions : List Shape → List Shape

/-- The object `defaultResolver` of `main`, a `DefaultCollisionResolver`. -/
def defaultResolver : CollisionResolver :=
  { resolveCollisions := DefaultCollisionResolver.resolveCollisions }

/-! ## Sandbox -/

/-- The class `Sandbox`: its private collection `shapes` and its resolver. -/
structure Sandbox where
  shapes : List Shape
  resolver : CollisionResolver

/-- One quad issued between `glBegin(GL_QUADS)` and `glEnd()`: its colour and
its four vertices in the order of the source. -/
structure Quad where
  color : F32 × F32 × F32
  v0 : F32 × F32
  v1 : F32 × F32
  v2 : F32 × F32
  v3 : F32 × F32
deriving DecidableEq

/-- The method `Sandbox::drawShape`. -/
def Sandbox.drawShape (x y size r g b : F32) : Quad :=
  { color := (r, g, b)
    v0 := (x.sub size, y.sub size)
    v1 := (x.add size, y.sub size)
    v2 := (x.add size, y.add size)
    v3 := (x.sub size, y.add size) }

/-- The method `Sandbox::drawShapes`: the quads drawn, in order. -/
def Sandbox.drawShapes (sb : Sandbox) : List Quad :=
  sb.shapes.map fun shape =>
    Sandbox.drawShape (F32.fin shape.x) (F32.fin shape.y) (F32.fin shape.size)
      (F32.fin shape.r) (F32.fin shape.g) (F32.fin shape.b)

/-- The method `Sandbox::updateShapes`. -/
def Sandbox.updateShapes (sb : Sandbox) (dt : ℚ) : Sandbox :=
  { sb with shapes := sb.shapes.map fun shape => shape.move dt }

/-- The method `Sandbox::update`. -/
def Sandbox.update (sb : Sandbox) (dt : ℚ) : Sandbox :=
  let sb1 := sb.updateShapes dt
  { sb1 with shapes := sb1.resolver.resolveCollisions sb1.shapes }

/-- The loop "Generate some random shapes" of `Sandbox::run`: `MIN_SHAPES`
calls of `emplace_back` on the member `shapes`, the `k`-th one fed by
`draws k`. -/
def Sandbox.generate (RAND_MAX : Nat) (draws : Nat → Draws) (sb : Sandbox) : Sandbox :=
  (List.range MIN_SHAPES.toNat).foldl
    (fun acc k => { acc with shapes := acc.shapes ++ [spawnShape RAND_MAX (draws k)] }) sb

/-! ## Program state and the key callback -/

/-- The mutable state of the program: the file-scope vector `shapes` (line 38 of
the source) and the object `sandbox` of `main`, which has a member `shapes` of
its own. -/
structure Program where
  shapes : List Shape
  sandbox : Sandbox

/-- The state in which `main` calls `sandbox.run()`: both vectors are empty. -/
def Program.start : Program :=
  { shapes := [], sandbox := { shapes := [], resolver := defaultResolver } }

/-- The callback `glfw_onKeyPressed`. It is a free function declared before the
class `Sandbox`, so the name `shapes` in it is the file-scope vector. -/
def glfw_onKeyPressed (RAND_MAX : Nat) (d : Draws) (key action : Int) (p : Program) :
    Program :=
  if action = GLFW_PRESS ∨ action = GLFW_REPEAT then
    if key = GLFW_KEY_UP then
      { p with shapes := p.shapes ++ [spawnShape RAND_MAX d] }
    else if key = GLFW_KEY_DOWN ∧ (p.shapes.length : Int) > MIN_SHAPES then
      { p with shapes := p.shapes.dropLast }
    else p
  else p

/-- A key event delivered by `glfwPollEvents`, with the results of `rand()`
available to the callback while it handles the event. -/
structure KeyEvent where
  key : Int
  action : Int
  draws : Draws

/-- The call `glfwPollEvents()`: the callback runs once per pending event, in
order. -/
def pollEvents (RAND_MAX : Nat) (events : List KeyEvent) (p : Program) : Program :=
  events.foldl (fun acc e => glfw_onKeyPressed RAND_MAX e.draws e.key e.action acc) p

/-- One iteration of the main loop of `Sandbox::run`, for the events pending
and the measured time delta: poll, update, draw. The result is the new state
and the quads drawn. -/
def frame (RAND_MAX : Nat) (events : List KeyEvent) (dt : ℚ) (p : Program) :
    Program × List Quad :=
  let p1 := pollEvents RAND_MAX events p
  let p2 : Program := { p1 with sandbox := p1.sandbox.update dt }
  (p2, p2.sandbox.drawShapes)

/-! ## Observations used in the statements -/

/-- The velocity vector `(dx, dy)` of a shape. -/
def Shape.velocity (s : Shape) : ℚ × ℚ := (s.dx, s.dy)

/-- Everything of a shape but its velocity: position, size and colour. -/
def Shape.body (s : Shape) : ℚ × ℚ × ℚ × ℚ × ℚ × ℚ := (s.x, s.y, s.size, s.r, s.g, s.b)

/-- The value of `x` after the statement `x += dx * dt` of `Shape::move`. -/
def Shape.integratedX (s : Shape) (dt : ℚ) : F32 :=
  (F32.fin s.x).add ((F32.fin s.dx).mul (F32.fin dt))

/-- The value of `y` after the statement `y += dy * dt` of `Shape::move`. -/
def Shape.integratedY (s : Shape) (dt : ℚ) : F32 :=
  (F32.fin s.y).add ((F32.fin s.dy).mul (F32.fin dt))

/-- The rational `q` is a finite binary32 value: rounding leaves it alone. -/
def isFloat (q : ℚ) : Prop := round32 q = F32.fin q

instance (q : ℚ) : Decidable (isFloat q) := by
  unfold isFloat
  infer_instance

/-- The condition in the words of the specification, in exact arithmetic: the
centres of `a` and `b` are at Euclidean distance strictly less than the sum of
the sizes (see `euclideanCloser_iff_real`). -/
def euclideanCloser (a b : Shape) : Prop :=
  0 < a.size + b.size ∧
    (b.x - a.x) * (b.x - a.x) + (b.y - a.y) * (b.y - a.y)
      < (a.size + b.size) * (a.size + b.size)

instance (a b : Shape) : Decidable (euclideanCloser a b) := by
  unfold euclideanCloser
  infer_instance

/-- The loop counters `(i', j')` of `resolveCollisions` have not passed the
pair `(i, j)`: the body has not run for `(i, j)` yet. -/
def beforePair (i j i' j' : Nat) : Prop := i' < i ∨ (i' = i ∧ j' ≤ j)

/-- The entries `i` and `j` of the collection exist and carry the velocity
vectors `vi` and `vj`. -/
def pairState (l : List Shape) (i j : Nat) (vi vj : ℚ × ℚ) : Prop :=
  (l[i]?).map Shape.velocity = some vi ∧ (l[j]?).map Shape.velocity = some vj

/-- The state of the program when the main loop of `Sandbox::run` starts: the
member collection has been generated, the file-scope vector is still empty. -/
def Program.started (RAND_MAX : Nat) (draws : Nat → Draws) : Program :=
  { Program.start with sandbox := Program.start.sandbox.generate RAND_MAX draws }

/-! ## Theorems -/

/-! ### Binary32 arithmetic -/

theorem pack_cases (n u : Int) : (∃ q, pack n u = F32.fin q) ∨ pack n u = F32.pinf := by
  unfold pack
  split_ifs
  · exact Or.inl ⟨_, rfl⟩
  · exact Or.inr rfl

theorem roundMag_cases (q : ℚ) : (∃ r, roundMag q = F32.fin r) ∨ roundMag q = F32.pinf :=
  pack_cases _ _

theorem round32_cases (q : ℚ) :
    (∃ r, round32 q = F32.fin r) ∨ round32 q = F32.pinf ∨ round32 q = F32.ninf := by
  unfold round32
  split_ifs
  · exact Or.inl ⟨0, rfl⟩
  · rcases roundMag_cases q with ⟨r, h⟩ | h
    · exact Or.inl ⟨r, h⟩
    · exact Or.inr (Or.inl h)
  · rcases roundMag_cases (-q) with ⟨r, h⟩ | h
    · exact Or.inl ⟨-r, by rw [h]; rfl⟩
    · exact Or.inr (Or.inr (by rw [h]; rfl))

theorem round32_ne_nan (q : ℚ) : round32 q ≠ F32.nan := by
  rcases round32_cases q with ⟨r, h⟩ | h | h <;> rw [h] <;> exact F32.noConfusion

theorem F32.neg_neg (a : F32) : a.neg.neg = a := by
  cases a <;> simp [F32.neg]

/-- Rounding commutes with negation: binary32 is a sign and a magnitude. -/
theorem round32_neg (q : ℚ) : round32 (-q) = (round32 q).neg := by
  unfold round32
  rcases lt_trichotomy q 0 with h | h | h
  · have h1 : ¬ -q = 0 := by
      intro hc
      linarith [neg_eq_zero.mp hc]
    have h2 : 0 < -q := by linarith
    have h3 : ¬ q = 0 := ne_of_lt h
    have h4 : ¬ 0 < q := by linarith
    rw [if_neg h1, if_pos h2, if_neg h3, if_neg h4, F32.neg_neg]
  · subst h
    simp [F32.neg]
  · have h1 : ¬ -q = 0 := by
      intro hc
      linarith [neg_eq_zero.mp hc]
    have h2 : ¬ 0 < -q := by linarith
    have h3 : ¬ q = 0 := ne_of_gt h
    rw [if_neg h1, if_neg h2, if_neg h3, if_pos h, neg_neg]

/-- Known values of the rounding: the binary32 value of 0.1, a tie above
`2 ^ 24` resolved to even, the largest finite value and the overflow threshold,
the smallest subnormal and the tie below it, and the square root of 2. -/
theorem round32_known_values :
    round32 (1 / 10) = F32.fin (13421773 / 134217728) ∧
    round32 16777217 = F32.fin 16777216 ∧
    round32 16777219 = F32.fin 16777220 ∧
    round32 (pow2 128 - pow2 103 - 1) = F32.fin (16777215 * pow2 104) ∧
    round32 (pow2 128 - pow2 103) = F32.pinf ∧
    round32 (pow2 (-149)) = F32.fin (pow2 (-149)) ∧
    round32 (pow2 (-150)) = F32.fin 0 ∧
    (F32.fin 2).sqrt = F32.fin (11863283 / 8388608) := by
  refine ⟨by decide!, by decide!, by decide!, by decide!, by decide!, by decide!, by decide!,
    by decide!⟩

theorem ofInt_WIDTH : F32.ofInt WIDTH = F32.fin 800 := by decide!

theorem ofInt_HEIGHT : F32.ofInt HEIGHT = F32.fin 600 := by decide!

/-- Multiplying a binary32 value by `-1` negates it exactly. -/
theorem mul_neg_one (v : ℚ) (hv : isFloat v) :
    (F32.fin v).mul (F32.fin (-1)) = F32.fin (-v) := by
  unfold isFloat at hv
  show round32 (v * (-1)) = F32.fin (-v)
  rw [show v * (-1) = -v by ring, round32_neg, hv]
  rfl

theorem add_fin_ne_nan (a : ℚ) (c : F32) (hc : c ≠ F32.nan) : (F32.fin a).add c ≠ F32.nan := by
  cases c with
  | fin b => exact round32_ne_nan _
  | pinf => exact F32.noConfusion
  | ninf => exact F32.noConfusion
  | nan => exact absurd rfl hc

theorem integratedX_ne_nan (s : Shape) (dt : ℚ) : s.integratedX dt ≠ F32.nan :=
  add_fin_ne_nan _ _ (round32_ne_nan _)

theorem integratedY_ne_nan (s : Shape) (dt : ℚ) : s.integratedY dt ≠ F32.nan :=
  add_fin_ne_nan _ _ (round32_ne_nan _)

/-- The reflect-and-clamp of one axis with maximum `M`, on the coordinate `c`
computed by the integration. -/
theorem clamp_axis (M : ℚ) (hM : 0 ≤ M) (c : F32) :
    (c.lt (F32.fin 0) = true →
      (if c.lt (F32.fin 0) || (F32.fin M).lt c
        then F32.max (F32.fin 0) (F32.min (F32.fin M) c) else c) = F32.fin 0) ∧
    ((F32.fin M).lt c = true →
      (if c.lt (F32.fin 0) || (F32.fin M).lt c
        then F32.max (F32.fin 0) (F32.min (F32.fin M) c) else c) = F32.fin M) ∧
    (c ≠ F32.nan → c.lt (F32.fin 0) = false → (F32.fin M).lt c = false →
      (if c.lt (F32.fin 0) || (F32.fin M).lt c
        then F32.max (F32.fin 0) (F32.min (F32.fin M) c) else c) = c ∧
      ∃ q, c = F32.fin q ∧ 0 ≤ q ∧ q ≤ M) := by
  cases c with
  | fin q =>
    refine ⟨?_, ?_, ?_⟩
    · intro h
      have hq : q < 0 := by simpa [F32.lt] using h
      have hqM : q < M := by linarith
      have h0q : ¬ 0 < q := by linarith
      simp [F32.lt, F32.max, F32.min, hq, hqM, h0q]
    · intro h
      have hq : M < q := by simpa [F32.lt] using h
      have hqM : ¬ q < M := by linarith
      have h0M : ¬ 0 < M → M = 0 := fun hc => le_antisymm (not_lt.mp hc) hM
      by_cases hM0 : 0 < M
      · simp [F32.lt, F32.max, F32.min, hq, hqM, hM0]
      · have : M = 0 := h0M hM0
        subst this
        simp [F32.lt, F32.max, F32.min, hq, hqM]
    · intro _ h1 h2
      have hq0 : ¬ q < 0 := by simpa [F32.lt] using h1
      have hqM : ¬ M < q := by simpa [F32.lt] using h2
      refine ⟨by simp [F32.lt, hq0, hqM], q, rfl, not_lt.mp hq0, not_lt.mp hqM⟩
  | pinf =>
    refine ⟨by simp [F32.lt], ?_, by simp [F32.lt]⟩
    intro _
    by_cases hM0 : 0 < M
    · simp [F32.lt, F32.max, F32.min, hM0]
    · have : M = 0 := le_antisymm (not_lt.mp hM0) hM
      subst this
      simp [F32.lt, F32.max, F32.min]
  | ninf =>
    refine ⟨?_, by simp [F32.lt], by simp [F32.lt]⟩
    intro _
    simp [F32.lt, F32.max, F32.min]
  | nan =>
    refine ⟨by simp [F32.lt], by simp [F32.lt], ?_⟩
    intro h
    exact absurd rfl h

/-- The coordinate kept by the reflect-and-clamp of one axis is finite and lies
in `[0, M]`. -/
theorem clamp_axis_bounds (M : ℚ) (hM : 0 ≤ M) (c : F32) (hc : c ≠ F32.nan) :
    ∃ q, (if c.lt (F32.fin 0) || (F32.fin M).lt c
      then F32.max (F32.fin 0) (F32.min (F32.fin M) c) else c) = F32.fin q ∧ 0 ≤ q ∧ q ≤ M := by
  obtain ⟨h1, h2, h3⟩ := clamp_axis M hM c
  by_cases hlo : c.lt (F32.fin 0) = true
  · exact ⟨0, h1 hlo, le_refl _, hM⟩
  · by_cases hhi : (F32.fin M).lt c = true
    · exact ⟨M, h2 hhi, hM, le_refl _⟩
    · obtain ⟨he, q, hq, hq0, hqM⟩ := h3 hc (by simpa using hlo) (by simpa using hhi)
      exact ⟨q, he.trans hq, hq0, hqM⟩

/-! ### Shape.move -/

theorem move_x (s : Shape) (dt : ℚ) :
    (s.move dt).x = (if (s.integratedX dt).lt (F32.fin 0) || (F32.fin 800).lt (s.integratedX dt)
      then F32.max (F32.fin 0) (F32.min (F32.fin 800) (s.integratedX dt))
      else s.integratedX dt).toRat := by
  rw [← ofInt_WIDTH]
  rfl

theorem move_y (s : Shape) (dt : ℚ) :
    (s.move dt).y = (if (s.integratedY dt).lt (F32.fin 0) || (F32.fin 600).lt (s.integratedY dt)
      then F32.max (F32.fin 0) (F32.min (F32.fin 600) (s.integratedY dt))
      else s.integratedY dt).toRat := by
  rw [← ofInt_HEIGHT]
  rfl

theorem move_dx (s : Shape) (dt : ℚ) :
    (s.move dt).dx = (if (s.integratedX dt).lt (F32.fin 0) || (F32.fin 800).lt (s.integratedX dt)
      then (F32.fin s.dx).mul (F32.fin (-1)) else F32.fin s.dx).toRat := by
  rw [← ofInt_WIDTH]
  rfl

theorem move_dy (s : Shape) (dt : ℚ) :
    (s.move dt).dy = (if (s.integratedY dt).lt (F32.fin 0) || (F32.fin 600).lt (s.integratedY dt)
      then (F32.fin s.dy).mul (F32.fin (-1)) else F32.fin s.dy).toRat := by
  rw [← ofInt_HEIGHT]
  rfl

/-- The coordinates that `Shape.move` stores are finite values: the field holds
the very value the code computes. -/
theorem move_stores_finite (s : Shape) (dt : ℚ) :
    (if (s.integratedX dt).lt (F32.fin 0) || (F32.ofInt WIDTH).lt (s.integratedX dt)
      then F32.max (F32.fin 0) (F32.min (F32.ofInt WIDTH) (s.integratedX dt))
      else s.integratedX dt) = F32.fin (s.move dt).x ∧
    (if (s.integratedY dt).lt (F32.fin 0) || (F32.ofInt HEIGHT).lt (s.integratedY dt)
      then F32.max (F32.fin 0) (F32.min (F32.ofInt HEIGHT) (s.integratedY dt))
      else s.integratedY dt) = F32.fin (s.move dt).y := by
  rw [move_x, move_y, ofInt_WIDTH, ofInt_HEIGHT]
  obtain ⟨q, hq, -, -⟩ := clamp_axis_bounds 800 (by norm_num) _ (integratedX_ne_nan s dt)
  obtain ⟨r, hr, -, -⟩ := clamp_axis_bounds 600 (by norm_num) _ (integratedY_ne_nan s dt)
  rw [hq, hr]
  exact ⟨rfl, rfl⟩

/-- C1: after `Shape.move`, for every shape and every time delta, the x
coordinate lies in `[0, WIDTH] = [0, 800]` and the y coordinate lies in
`[0, HEIGHT] = [0, 600]`. -/
theorem move_within_bounds (s : Shape) (dt : ℚ) :
    0 ≤ (s.move dt).x ∧ (s.move dt).x ≤ (WIDTH : ℚ) ∧ (WIDTH : ℚ) = 800 ∧
    0 ≤ (s.move dt).y ∧ (s.move dt).y ≤ (HEIGHT : ℚ) ∧ (HEIGHT : ℚ) = 600 := by
  have hW : (WIDTH : ℚ) = 800 := by norm_num [WIDTH]
  have hH : (HEIGHT : ℚ) = 600 := by norm_num [HEIGHT]
  obtain ⟨q, hq, hq0, hqM⟩ := clamp_axis_bounds 800 (by norm_num) _ (integratedX_ne_nan s dt)
  obtain ⟨r, hr, hr0, hrM⟩ := clamp_axis_bounds 600 (by norm_num) _ (integratedY_ne_nan s dt)
  rw [move_x, move_y, hq, hr, hW, hH]
  exact ⟨hq0, hqM, rfl, hr0, hrM, rfl⟩

/-! ### The collision test -/

/-- The exact condition is the comparison of the Euclidean distance of the
centres with the sum of the sizes. -/
theorem euclideanCloser_iff_real (a b : Shape) :
    euclideanCloser a b ↔
      Real.sqrt ((((b.x - a.x) * (b.x - a.x) + (b.y - a.y) * (b.y - a.y) : ℚ)) : ℝ)
        < ((a.size + b.size : ℚ) : ℝ) := by
  unfold euclideanCloser
  have hd : (0 : ℝ) ≤ (((b.x - a.x) * (b.x - a.x) + (b.y - a.y) * (b.y - a.y) : ℚ) : ℝ) := by
    have : (0 : ℚ) ≤ (b.x - a.x) * (b.x - a.x) + (b.y - a.y) * (b.y - a.y) := by
      nlinarith [mul_self_nonneg (b.x - a.x), mul_self_nonneg (b.y - a.y)]
    exact_mod_cast this
  constructor
  · rintro ⟨hm, hlt⟩
    have hm' : (0 : ℝ) < ((a.size + b.size : ℚ) : ℝ) := by exact_mod_cast hm
    rw [Real.sqrt_lt' hm']
    have : (((b.x - a.x) * (b.x - a.x) + (b.y - a.y) * (b.y - a.y) : ℚ) : ℝ)
        < ((a.size + b.size : ℚ) : ℝ) * ((a.size + b.size : ℚ) : ℝ) := by exact_mod_cast hlt
    nlinarith
  · intro h
    have hm' : (0 : ℝ) < ((a.size + b.size : ℚ) : ℝ) :=
      lt_of_le_of_lt (Real.sqrt_nonneg _) h
    rw [Real.sqrt_lt' hm'] at h
    refine ⟨by exact_mod_cast hm', ?_⟩
    have : (((b.x - a.x) * (b.x - a.x) + (b.y - a.y) * (b.y - a.y) : ℚ) : ℝ)
        < ((a.size + b.size : ℚ) : ℝ) * ((a.size + b.size : ℚ) : ℝ) := by nlinarith
    exact_mod_cast this

theorem F32.sub_fin_swap (a b : ℚ) :
    (F32.fin a).sub (F32.fin b) = ((F32.fin b).sub (F32.fin a)).neg := by
  show round32 (a + -b) = (round32 (b + -a)).neg
  rw [← round32_neg]
  congr 1
  ring

theorem F32.mul_neg_self (d : F32) : d.neg.mul d.neg = d.mul d := by
  cases d with
  | fin q =>
    show round32 (-q * -q) = round32 (q * q)
    rw [neg_mul_neg]
  | pinf => rfl
  | ninf => rfl
  | nan => rfl

theorem F32.add_fin_comm (a b : ℚ) : (F32.fin a).add (F32.fin b) = (F32.fin b).add (F32.fin a) := by
  show round32 (a + b) = round32 (b + a)
  rw [add_comm]

/-- The collision test does not depend on the order of the two shapes. -/
theorem overlaps_comm (a b : Shape) : overlaps a b ↔ overlaps b a := by
  unfold overlaps
  simp only
  rw [F32.sub_fin_swap b.x a.x, F32.sub_fin_swap b.y a.y, F32.mul_neg_self, F32.mul_neg_self,
    F32.add_fin_comm a.size b.size]

theorem overlaps_congr_body {a b a' b' : Shape} (ha : a.body = a'.body) (hb : b.body = b'.body) :
    overlaps a b ↔ overlaps a' b' := by
  simp only [Shape.body, Prod.mk.injEq] at ha hb
  obtain ⟨hax, hay, has, -⟩ := ha
  obtain ⟨hbx, hby, hbs, -⟩ := hb
  unfold overlaps
  simp only [hax, hay, has, hbx, hby, hbs]

/-! ### One step of the inner loop -/

theorem swapDx_length (l : List Shape) (i j : Nat) : (swapDx l i j).length = l.length := by
  unfold swapDx
  split <;> simp

theorem swapDy_length (l : List Shape) (i j : Nat) : (swapDy l i j).length = l.length := by
  unfold swapDy
  split <;> simp

@[simp] theorem collisionStep_length (i j : Nat) (l : List Shape) :
    (collisionStep i j l).length = l.length := by
  unfold collisionStep
  split
  · split
    · rw [swapDy_length, swapDx_length]
    · rfl
  · rfl

/-- The two swaps of the loop body together, for two distinct valid indices. -/
theorem swap_both (l : List Shape) (i j : Nat) (a b : Shape) (hij : i ≠ j)
    (hi : l[i]? = some a) (hj : l[j]? = some b) :
    swapDy (swapDx l i j) i j
      = (l.set i { a with dx := b.dx, dy := b.dy }).set j { b with dx := a.dx, dy := a.dy } := by
  have hil : i < l.length := (List.getElem?_eq_some_iff.mp hi).1
  have hjl : j < l.length := (List.getElem?_eq_some_iff.mp hj).1
  have e1 : swapDx l i j = (l.set i { a with dx := b.dx }).set j { b with dx := a.dx } := by
    unfold swapDx
    rw [hi, hj]
  have g1 : (swapDx l i j)[i]? = some { a with dx := b.dx } := by
    rw [e1, List.getElem?_set_ne (Ne.symm hij), List.getElem?_set_self hil]
  have g2 : (swapDx l i j)[j]? = some { b with dx := a.dx } := by
    rw [e1, List.getElem?_set_self (by simpa using hjl)]
  unfold swapDy
  rw [g1, g2, e1]
  apply List.ext_getElem?
  intro k
  simp only [List.getElem?_set]
  by_cases hkj : j = k
  · subst hkj
    simp [hjl]
  · by_cases hki : i = k
    · subst hki
      simp [hkj, hil]
    · simp [hkj, hki]

theorem collisionStep_of_overlaps (l : List Shape) (i j : Nat) (a b : Shape) (hij : i ≠ j)
    (hi : l[i]? = some a) (hj : l[j]? = some b) (hov : overlaps a b) :
    collisionStep i j l
      = (l.set i { a with dx := b.dx, dy := b.dy }).set j { b with dx := a.dx, dy := a.dy } := by
  unfold collisionStep
  rw [hi, hj]
  simp only [hov, if_true]
  exact swap_both l i j a b hij hi hj

theorem collisionStep_of_not_overlaps (l : List Shape) (i j : Nat) (a b : Shape)
    (hi : l[i]? = some a) (hj : l[j]? = some b) (hov : ¬ overlaps a b) :
    collisionStep i j l = l := by
  unfold collisionStep
  rw [hi, hj]
  simp only [hov, if_false]

/-- Either the step leaves the list alone, or both indices are valid, the two
shapes overlap and their velocities are exchanged. -/
theorem collisionStep_cases (l : List Shape) (i j : Nat) (hij : i ≠ j) :
    collisionStep i j l = l ∨
    ∃ a b, l[i]? = some a ∧ l[j]? = some b ∧ overlaps a b ∧
      collisionStep i j l
        = (l.set i { a with dx := b.dx, dy := b.dy }).set j { b with dx := a.dx, dy := a.dy } := by
  cases hi : l[i]? with
  | none =>
    left
    unfold collisionStep
    rw [hi]
  | some a =>
    cases hj : l[j]? with
    | none =>
      left
      unfold collisionStep
      rw [hi, hj]
    | some b =>
      by_cases hov : overlaps a b
      · right
        exact ⟨a, b, rfl, rfl, hov, collisionStep_of_overlaps l i j a b hij hi hj hov⟩
      · left
        exact collisionStep_of_not_overlaps l i j a b hi hj hov

/-! ### Lists: replacing and exchanging entries -/

theorem map_set_eq_self {α β : Type} (f : α → β) (l : List α) (i : Nat) (a x : α)
    (hi : l[i]? = some a) (h : f x = f a) : (l.set i x).map f = l.map f := by
  apply List.ext_getElem?
  intro k
  simp only [List.getElem?_map, List.getElem?_set]
  by_cases hk : i = k
  · subst hk
    have hil : i < l.length := (List.getElem?_eq_some_iff.mp hi).1
    simp [hil, hi, h]
  · simp [hk]

theorem cons_set_perm {α : Type} (t : List α) (j : Nat) (y c : α) (hj : t[j]? = some y) :
    (y :: t.set j c).Perm (c :: t) := by
  induction t generalizing j with
  | nil => simp at hj
  | cons d t ih =>
    cases j with
    | zero =>
      simp only [List.getElem?_cons_zero, Option.some.injEq] at hj
      subst hj
      simpa using List.Perm.swap c d t
    | succ j =>
      simp only [List.getElem?_cons_succ] at hj
      simp only [List.set_cons_succ]
      exact ((List.Perm.swap d y _).trans ((ih j hj).cons d)).trans (List.Perm.swap c d t)

theorem set_set_perm_self {α : Type} (l : List α) (i j : Nat) (x y : α) (hij : i ≠ j)
    (hi : l[i]? = some x) (hj : l[j]? = some y) : ((l.set i y).set j x).Perm l := by
  induction l generalizing i j with
  | nil => simp at hi
  | cons c t ih =>
    cases i with
    | zero =>
      cases j with
      | zero => exact absurd rfl hij
      | succ j =>
        simp only [List.getElem?_cons_zero, Option.some.injEq] at hi
        simp only [List.getElem?_cons_succ] at hj
        subst hi
        simpa using cons_set_perm t j y c hj
    | succ i =>
      cases j with
      | zero =>
        simp only [List.getElem?_cons_zero, Option.some.injEq] at hj
        simp only [List.getElem?_cons_succ] at hi
        subst hj
        simpa using cons_set_perm t i x c hi
      | succ j =>
        simp only [List.getElem?_cons_succ] at hi hj
        simp only [List.set_cons_succ]
        exact (ih i j (by omega) hi hj).cons c

theorem getElem?_of_map_body_eq {l l' : List Shape} (hb : l'.map Shape.body = l.map Shape.body)
    {k : Nat} {c : Shape} (hk : l[k]? = some c) :
    ∃ c', l'[k]? = some c' ∧ c'.body = c.body := by
  have h : (l'.map Shape.body)[k]? = (l.map Shape.body)[k]? := by rw [hb]
  rw [List.getElem?_map, List.getElem?_map, hk] at h
  cases hc : l'[k]? with
  | none => simp [hc] at h
  | some c' =>
    refine ⟨c', rfl, ?_⟩
    simpa [hc] using h

/-! ### What one step preserves -/

theorem collisionStep_body (l : List Shape) (i j : Nat) (hij : i ≠ j) :
    (collisionStep i j l).map Shape.body = l.map Shape.body := by
  rcases collisionStep_cases l i j hij with h | ⟨a, b, hi, hj, -, h⟩
  · rw [h]
  · rw [h]
    have hj' : (l.set i { a with dx := b.dx, dy := b.dy })[j]? = some b := by
      rw [List.getElem?_set_ne hij, hj]
    rw [map_set_eq_self Shape.body _ j b { b with dx := a.dx, dy := a.dy } hj' rfl,
      map_set_eq_self Shape.body _ i a { a with dx := b.dx, dy := b.dy } hi rfl]

theorem collisionStep_velocity_perm (l : List Shape) (i j : Nat) (hij : i ≠ j) :
    ((collisionStep i j l).map Shape.velocity).Perm (l.map Shape.velocity) := by
  rcases collisionStep_cases l i j hij with h | ⟨a, b, hi, hj, -, h⟩
  · rw [h]
  · rw [h]
    simp only [List.map_set]
    exact set_set_perm_self (l.map Shape.velocity) i j a.velocity b.velocity hij
      (by simp [List.getElem?_map, hi]) (by simp [List.getElem?_map, hj])

theorem collisionStep_getElem?_of_ne (l : List Shape) (i j k : Nat) (hij : i ≠ j)
    (hki : k ≠ i) (hkj : k ≠ j) : (collisionStep i j l)[k]? = l[k]? := by
  rcases collisionStep_cases l i j hij with h | ⟨a, b, -, -, -, h⟩
  · rw [h]
  · rw [h, List.getElem?_set_ne (Ne.symm hkj), List.getElem?_set_ne (Ne.symm hki)]

/-! ### The loops -/

theorem innerLoop_of_lt (i j : Nat) (l : List Shape) (h : j < l.length) :
    innerLoop i j l = innerLoop i (j + 1) (collisionStep i j l) := by
  rw [innerLoop, if_pos h]

theorem innerLoop_of_ge (i j : Nat) (l : List Shape) (h : l.length ≤ j) :
    innerLoop i j l = l := by
  rw [innerLoop, if_neg (by omega)]

/-- Invariant rule for the inner loop: an invariant of the loop body, indexed by
the loop counter, holds at the exit with the counter at the length. -/
theorem innerLoop_invariant (i : Nat) (I : Nat → List Shape → Prop)
    (hstep : ∀ j l, j < l.length → I j l → I (j + 1) (collisionStep i j l)) :
    ∀ (n j : Nat) (l : List Shape), l.length - j = n → j ≤ l.length → I j l →
      I l.length (innerLoop i j l) ∧ (innerLoop i j l).length = l.length := by
  intro n
  induction n with
  | zero =>
    intro j l hn hj hI
    have hjl : j = l.length := by omega
    rw [innerLoop_of_ge i j l (by omega)]
    exact ⟨hjl ▸ hI, rfl⟩
  | succ n ih =>
    intro j l hn hj hI
    have hjl : j < l.length := by omega
    rw [innerLoop_of_lt i j l hjl]
    have h := ih (j + 1) (collisionStep i j l) (by simp; omega) (by simp; omega)
      (hstep j l hjl hI)
    simpa using h

theorem innerLoop_length (i j : Nat) (l : List Shape) : (innerLoop i j l).length = l.length := by
  by_cases hj : j ≤ l.length
  · exact (innerLoop_invariant i (fun _ _ => True) (fun _ _ _ _ => trivial) _ j l rfl hj
      trivial).2
  · rw [innerLoop_of_ge i j l (by omega)]

theorem outerLoop_of_lt (i : Nat) (l : List Shape) (h : i < l.length) :
    outerLoop i l = outerLoop (i + 1) (innerLoop i (i + 1) l) := by
  rw [outerLoop, if_pos h]

theorem outerLoop_of_ge (i : Nat) (l : List Shape) (h : l.length ≤ i) :
    outerLoop i l = l := by
  rw [outerLoop, if_neg (by omega)]

/-- Invariant rule for the outer loop. -/
theorem outerLoop_invariant (J : Nat → List Shape → Prop)
    (hstep : ∀ i l, i < l.length → J i l → J (i + 1) (innerLoop i (i + 1) l)) :
    ∀ (n i : Nat) (l : List Shape), l.length - i = n → i ≤ l.length → J i l →
      J l.length (outerLoop i l) ∧ (outerLoop i l).length = l.length := by
  intro n
  induction n with
  | zero =>
    intro i l hn hi hJ
    have hil : i = l.length := by omega
    rw [outerLoop_of_ge i l (by omega)]
    exact ⟨hil ▸ hJ, rfl⟩
  | succ n ih =>
    intro i l hn hi hJ
    have hil : i < l.length := by omega
    rw [outerLoop_of_lt i l hil]
    have h := ih (i + 1) (innerLoop i (i + 1) l) (by rw [innerLoop_length]; omega)
      (by rw [innerLoop_length]; omega) (hstep i l hil hJ)
    simpa [innerLoop_length] using h

/-- Invariant rule for `resolveCollisions`: a property of the collection kept
by the loop body on every pair `i < j` of valid indices is kept by the call. -/
theorem resolveCollisions_invariant (Q : List Shape → Prop)
    (hstep : ∀ i j l, i < j → j < l.length → Q l → Q (collisionStep i j l))
    (l : List Shape) (h : Q l) : Q (DefaultCollisionResolver.resolveCollisions l) := by
  unfold DefaultCollisionResolver.resolveCollisions
  refine (outerLoop_invariant (fun _ l => Q l) ?_ _ 0 l rfl (Nat.zero_le _) h).1
  intro i l _ hQ
  exact (innerLoop_invariant i (fun j l => i < j ∧ Q l)
    (fun j l hj hI => ⟨by omega, hstep i j l hI.1 hj hI.2⟩) _ (i + 1) l rfl (by omega)
    ⟨by omega, hQ⟩).1.2

theorem resolveCollisions_length (l : List Shape) :
    (DefaultCollisionResolver.resolveCollisions l).length = l.length :=
  resolveCollisions_invariant (fun l' => l'.length = l.length)
    (fun i j l' _ _ h => by simpa using h) l rfl

/-! ### Reflection -/

/-- C2, counterexample: the shape at `x = 799` with `dx = 50` and the binary32
time delta `dt = 10737419 / 536870912` (just above 1/50). In exact arithmetic
`x + dx * dt` is above `WIDTH = 800`, but the product rounds to `1 + 2 ^ (-23)`
and the sum to exactly 800, so `x > WIDTH` is false: the velocity stays `50` and
is not inverted. -/
theorem move_reflects_exact_counterexample :
    isFloat 799 ∧ isFloat 50 ∧ isFloat (10737419 / 536870912) ∧
    (WIDTH : ℚ) < (799 : ℚ) + 50 * (10737419 / 536870912) ∧
    (Shape.mk 799 300 50 0 10 1 1 1).integratedX (10737419 / 536870912) = F32.fin 800 ∧
    ((Shape.mk 799 300 50 0 10 1 1 1).move (10737419 / 536870912)).dx = 50 ∧
    ((Shape.mk 799 300 50 0 10 1 1 1).move (10737419 / 536870912)).x = 800 := by
  refine ⟨by decide!, by decide!, by decide!, by norm_num [WIDTH], by decide!, by decide!,
    by decide!⟩

/-- C2, amended: reflection of `Shape.move`, per axis, on the coordinate as the
code computes it in binary32 (`integratedX`, `integratedY`: the product
`v * dt` rounded, then the sum rounded). If the computed coordinate is below 0,
the coordinate becomes 0 and the velocity `-v`; if it is above the axis maximum
(`WIDTH` for x, `HEIGHT` for y), the coordinate becomes that maximum and the
velocity `-v`; otherwise the coordinate is exactly the computed one and the
velocity is unchanged. The velocity `v` is a binary32 value. -/
theorem move_reflects (s : Shape) (dt : ℚ) :
    ((s.integratedX dt).lt (F32.fin 0) = true →
      (s.move dt).x = 0 ∧ (isFloat s.dx → (s.move dt).dx = -s.dx)) ∧
    ((F32.ofInt WIDTH).lt (s.integratedX dt) = true →
      (s.move dt).x = (WIDTH : ℚ) ∧ (isFloat s.dx → (s.move dt).dx = -s.dx)) ∧
    ((s.integratedX dt).lt (F32.fin 0) = false →
      (F32.ofInt WIDTH).lt (s.integratedX dt) = false →
      F32.fin (s.move dt).x = s.integratedX dt ∧ (s.move dt).dx = s.dx) ∧
    ((s.integratedY dt).lt (F32.fin 0) = true →
      (s.move dt).y = 0 ∧ (isFloat s.dy → (s.move dt).dy = -s.dy)) ∧
    ((F32.ofInt HEIGHT).lt (s.integratedY dt) = true →
      (s.move dt).y = (HEIGHT : ℚ) ∧ (isFloat s.dy → (s.move dt).dy = -s.dy)) ∧
    ((s.integratedY dt).lt (F32.fin 0) = false →
      (F32.ofInt HEIGHT).lt (s.integratedY dt) = false →
      F32.fin (s.move dt).y = s.integratedY dt ∧ (s.move dt).dy = s.dy) := by
  have hW : (WIDTH : ℚ) = 800 := by norm_num [WIDTH]
  have hH : (HEIGHT : ℚ) = 600 := by norm_num [HEIGHT]
  obtain ⟨x1, x2, x3⟩ := clamp_axis 800 (by norm_num) (s.integratedX dt)
  obtain ⟨y1, y2, y3⟩ := clamp_axis 600 (by norm_num) (s.integratedY dt)
  rw [move_x, move_dx, move_y, move_dy, ofInt_WIDTH, ofInt_HEIGHT, hW, hH]
  refine ⟨?_, ?_, ?_, ?_, ?_, ?_⟩
  · intro h
    refine ⟨by rw [x1 h]; rfl, fun hv => ?_⟩
    rw [h, Bool.true_or, if_pos rfl, mul_neg_one _ hv]
    rfl
  · intro h
    refine ⟨by rw [x2 h]; rfl, fun hv => ?_⟩
    rw [h, Bool.or_true, if_pos rfl, mul_neg_one _ hv]
    rfl
  · intro h1 h2
    obtain ⟨he, q, hq, -, -⟩ := x3 (integratedX_ne_nan s dt) h1 h2
    refine ⟨?_, ?_⟩
    · rw [he, hq]
      rfl
    · rw [h1, h2]
      rfl
  · intro h
    refine ⟨by rw [y1 h]; rfl, fun hv => ?_⟩
    rw [h, Bool.true_or, if_pos rfl, mul_neg_one _ hv]
    rfl
  · intro h
    refine ⟨by rw [y2 h]; rfl, fun hv => ?_⟩
    rw [h, Bool.or_true, if_pos rfl, mul_neg_one _ hv]
    rfl
  · intro h1 h2
    obtain ⟨he, q, hq, -, -⟩ := y3 (integratedY_ne_nan s dt) h1 h2
    refine ⟨?_, ?_⟩
    · rw [he, hq]
      rfl
    · rw [h1, h2]
      rfl

/-- Witness of C2 amended: the shape at `x = WIDTH - 1 = 799` with `dx = 50` and
`dt = 13421773 / 134217728`, the binary32 value of 0.1. The computed coordinate
is 804, above 800: the shape ends at `x = 800` with `dx = -50`. -/
theorem move_reflects_witness :
    (Shape.mk 799 300 50 0 10 1 1 1).integratedX (13421773 / 134217728) = F32.fin 804 ∧
    ((Shape.mk 799 300 50 0 10 1 1 1).move (13421773 / 134217728)).x = 800 ∧
    ((Shape.mk 799 300 50 0 10 1 1 1).move (13421773 / 134217728)).dx = -50 := by
  have h := (move_reflects (Shape.mk 799 300 50 0 10 1 1 1) (13421773 / 134217728)).2.1
    (by decide!)
  refine ⟨by decide!, ?_, h.2 (by decide!)⟩
  rw [h.1]
  norm_num [WIDTH]

/-! ### Population -/

theorem glfw_onKeyPressed_floor (RAND_MAX : Nat) (d : Draws) (key action : Int) (p : Program)
    (h : MIN_SHAPES ≤ (p.shapes.length : Int)) :
    MIN_SHAPES ≤ ((glfw_onKeyPressed RAND_MAX d key action p).shapes.length : Int) := by
  unfold glfw_onKeyPressed
  split_ifs with h1 h2 h3
  · simp only [List.length_append, List.length_singleton]
    push_cast
    omega
  · simp only [List.length_dropLast]
    omega
  · exact h
  · exact h

theorem pollEvents_floor (RAND_MAX : Nat) (events : List KeyEvent) :
    ∀ p : Program, MIN_SHAPES ≤ (p.shapes.length : Int) →
      MIN_SHAPES ≤ ((pollEvents RAND_MAX events p).shapes.length : Int) := by
  induction events with
  | nil =>
    intro p h
    exact h
  | cons e es ih =>
    intro p h
    unfold pollEvents
    rw [List.foldl_cons]
    exact ih _ (glfw_onKeyPressed_floor RAND_MAX e.draws e.key e.action p h)

/-- C3: population floor. From a file-scope collection of exactly `MIN_SHAPES`
(100) shapes, after every finite sequence of key events the collection has at
least `MIN_SHAPES` shapes; and a DOWN key pressed or repeated removes the last
shape when the size is strictly greater than `MIN_SHAPES` and changes nothing
otherwise. -/
theorem population_floor (RAND_MAX : Nat) (p : Program)
    (h : (p.shapes.length : Int) = MIN_SHAPES) :
    MIN_SHAPES = 100 ∧
    (∀ events : List KeyEvent,
      MIN_SHAPES ≤ ((pollEvents RAND_MAX events p).shapes.length : Int)) ∧
    (∀ (d : Draws) (action : Int) (q : Program), action = GLFW_PRESS ∨ action = GLFW_REPEAT →
      glfw_onKeyPressed RAND_MAX d GLFW_KEY_DOWN action q
        = if (q.shapes.length : Int) > MIN_SHAPES then { q with shapes := q.shapes.dropLast }
          else q) := by
  refine ⟨rfl, fun events => pollEvents_floor RAND_MAX events p (le_of_eq h.symm), ?_⟩
  intro d action q hact
  unfold glfw_onKeyPressed
  rw [if_pos hact, if_neg (by decide)]
  by_cases hq : (q.shapes.length : Int) > MIN_SHAPES
  · rw [if_pos ⟨rfl, hq⟩, if_pos hq]
  · rw [if_neg (fun hc => hq hc.2), if_neg hq]

/-- Witness of C3: a collection of 100 copies of one shape, then DOWN, UP,
DOWN, DOWN. -/
theorem population_floor_witness :
    MIN_SHAPES ≤ ((pollEvents 32767
      [⟨GLFW_KEY_DOWN, GLFW_PRESS, ⟨1, 2, 3, 4, 5, 6, 7, 8⟩⟩,
       ⟨GLFW_KEY_UP, GLFW_PRESS, ⟨1, 2, 3, 4, 5, 6, 7, 8⟩⟩,
       ⟨GLFW_KEY_DOWN, GLFW_REPEAT, ⟨1, 2, 3, 4, 5, 6, 7, 8⟩⟩,
       ⟨GLFW_KEY_DOWN, GLFW_PRESS, ⟨1, 2, 3, 4, 5, 6, 7, 8⟩⟩]
      { shapes := List.replicate 100 (Shape.mk 1 1 1 1 10 0 0 0),
        sandbox := { shapes := [], resolver := defaultResolver } }).shapes.length : Int) :=
  (population_floor 32767
    { shapes := List.replicate 100 (Shape.mk 1 1 1 1 10 0 0 0),
      sandbox := { shapes := [], resolver := defaultResolver } }
    (by simp [MIN_SHAPES])).2.1 _

/-! ### Collision resolution: what is kept -/

theorem resolveCollisions_body_velocity (l : List Shape) :
    (DefaultCollisionResolver.resolveCollisions l).map Shape.body = l.map Shape.body ∧
    ((DefaultCollisionResolver.resolveCollisions l).map Shape.velocity).Perm
      (l.map Shape.velocity) :=
  resolveCollisions_invariant
    (fun l' => l'.map Shape.body = l.map Shape.body ∧
      (l'.map Shape.velocity).Perm (l.map Shape.velocity))
    (fun i j l' hij _ hQ =>
      ⟨(collisionStep_body l' i j (by omega)).trans hQ.1,
       (collisionStep_velocity_perm l' i j (by omega)).trans hQ.2⟩)
    l ⟨rfl, List.Perm.refl _⟩

theorem resolveCollisions_getElem?_body (l : List Shape) (k : Nat) :
    ((DefaultCollisionResolver.resolveCollisions l)[k]?).map Shape.body
      = (l[k]?).map Shape.body := by
  rw [← List.getElem?_map, ← List.getElem?_map, (resolveCollisions_body_velocity l).1]

/-- C6: `resolveCollisions` only redistributes velocities. The result has the
same length, every index keeps its position, size and colour, and the list of
velocity vectors of the result is a permutation of that of the input. -/
theorem resolveCollisions_redistributes (l : List Shape) :
    (DefaultCollisionResolver.resolveCollisions l).length = l.length ∧
    (∀ k : Nat, ((DefaultCollisionResolver.resolveCollisions l)[k]?).map Shape.body
      = (l[k]?).map Shape.body) ∧
    (∀ (k : Nat) (s : Shape), l[k]? = some s →
      ∃ s', (DefaultCollisionResolver.resolveCollisions l)[k]? = some s' ∧
        s'.x = s.x ∧ s'.y = s.y ∧ s'.size = s.size ∧ s'.r = s.r ∧ s'.g = s.g ∧ s'.b = s.b) ∧
    ((DefaultCollisionResolver.resolveCollisions l).map Shape.velocity).Perm
      (l.map Shape.velocity) := by
  refine ⟨resolveCollisions_length l, resolveCollisions_getElem?_body l, ?_,
    (resolveCollisions_body_velocity l).2⟩
  intro k s hk
  obtain ⟨s', hs', hbody⟩ := getElem?_of_map_body_eq (resolveCollisions_body_velocity l).1 hk
  simp only [Shape.body, Prod.mk.injEq] at hbody
  exact ⟨s', hs', hbody⟩

/-- C5, amended: when no pair of shapes of the collection passes the collision
test as the code computes it in binary32 (`overlaps`), `resolveCollisions`
returns the collection unchanged, and so does a second call; in particular a
collection of zero or one shape is returned unchanged. -/
theorem resolveCollisions_no_overlap (l : List Shape) :
    ((∀ (i j : Nat) (a b : Shape), i < j → l[i]? = some a → l[j]? = some b → ¬ overlaps a b) →
      DefaultCollisionResolver.resolveCollisions l = l ∧
      DefaultCollisionResolver.resolveCollisions
        (DefaultCollisionResolver.resolveCollisions l) = l) ∧
    (l.length ≤ 1 → DefaultCollisionResolver.resolveCollisions l = l) := by
  have key : (∀ (i j : Nat) (a b : Shape), i < j → l[i]? = some a → l[j]? = some b →
      ¬ overlaps a b) → DefaultCollisionResolver.resolveCollisions l = l := by
    intro hno
    refine resolveCollisions_invariant (fun l' => l' = l) ?_ l rfl
    intro i j l' hij hj hQ
    subst hQ
    have hi : i < l'.length := by omega
    have hjl : l'[j]? = some l'[j] := List.getElem?_eq_getElem hj
    have hil : l'[i]? = some l'[i] := List.getElem?_eq_getElem hi
    exact collisionStep_of_not_overlaps l' i j _ _ hil hjl (hno i j _ _ hij hil hjl)
  refine ⟨fun hno => ?_, fun hlen => key ?_⟩
  · have h := key hno
    exact ⟨h, by rw [h, h]⟩
  · intro i j a b hij _ hj
    have hjl : j < l.length := (List.getElem?_eq_some_iff.mp hj).1
    omega

/-! ### Collision response -/

/-- A step on a pair other than `(i, j)` leaves the entries `i` and `j` alone,
when `(i, j)` is the only overlapping pair that involves `i` or `j`. -/
theorem collisionStep_keeps_pair (l l' : List Shape) (i j i' j' : Nat) (a b : Shape)
    (hij : i < j) (hi : l[i]? = some a) (hj : l[j]? = some b)
    (hno : ∀ (k : Nat) (c : Shape), k ≠ i → k ≠ j → l[k]? = some c →
      ¬ overlaps a c ∧ ¬ overlaps b c)
    (hb : l'.map Shape.body = l.map Shape.body)
    (hij' : i' < j') (hj' : j' < l'.length) (hne : ¬ (i' = i ∧ j' = j)) :
    (collisionStep i' j' l')[i]? = l'[i]? ∧ (collisionStep i' j' l')[j]? = l'[j]? := by
  by_cases hdis : i ≠ i' ∧ i ≠ j' ∧ j ≠ i' ∧ j ≠ j'
  · obtain ⟨h1, h2, h3, h4⟩ := hdis
    exact ⟨collisionStep_getElem?_of_ne l' i' j' i (by omega) h1 h2,
      collisionStep_getElem?_of_ne l' i' j' j (by omega) h3 h4⟩
  · have hlen : l'.length = l.length := by
      have := congrArg List.length hb
      simpa using this
    have hi'l : i' < l.length := by omega
    have hj'l : j' < l.length := by omega
    obtain ⟨p0, hp0⟩ : ∃ p0, l[i']? = some p0 := ⟨_, List.getElem?_eq_getElem hi'l⟩
    obtain ⟨q0, hq0⟩ : ∃ q0, l[j']? = some q0 := ⟨_, List.getElem?_eq_getElem hj'l⟩
    obtain ⟨p, hp, hpb⟩ := getElem?_of_map_body_eq hb hp0
    obtain ⟨q, hq, hqb⟩ := getElem?_of_map_body_eq hb hq0
    have hnov : ¬ overlaps p0 q0 := by
      by_cases e1 : i' = i
      · subst e1
        have e : p0 = a := Option.some.inj (hp0.symm.trans hi)
        rw [e]
        exact (hno j' q0 (by omega) (by omega) hq0).1
      · by_cases e2 : i' = j
        · subst e2
          have e : p0 = b := Option.some.inj (hp0.symm.trans hj)
          rw [e]
          exact (hno j' q0 (by omega) (by omega) hq0).2
        · by_cases e3 : j' = i
          · subst e3
            have e : q0 = a := Option.some.inj (hq0.symm.trans hi)
            rw [e, overlaps_comm]
            exact (hno i' p0 e1 e2 hp0).1
          · have e4 : j' = j := by omega
            subst e4
            have e : q0 = b := Option.some.inj (hq0.symm.trans hj)
            rw [e, overlaps_comm]
            exact (hno i' p0 e1 e2 hp0).2
    have hnov' : ¬ overlaps p q := by
      rw [overlaps_congr_body hpb hqb]
      exact hnov
    rw [collisionStep_of_not_overlaps l' i' j' p q hp hq hnov']
    exact ⟨rfl, rfl⟩

/-- The loop body keeps the invariant of the collision response: bodies are
those of the input, and the entries `i` and `j` carry their input velocities
until the body has run for `(i, j)`, and the exchanged ones afterwards. -/
theorem collisionStep_response_inv (l l' : List Shape) (i j i' j' : Nat) (a b : Shape)
    (hij : i < j) (hi : l[i]? = some a) (hj : l[j]? = some b) (hov : overlaps a b)
    (hno : ∀ (k : Nat) (c : Shape), k ≠ i → k ≠ j → l[k]? = some c →
      ¬ overlaps a c ∧ ¬ overlaps b c)
    (hij' : i' < j') (hj' : j' < l'.length)
    (hb : l'.map Shape.body = l.map Shape.body)
    (h1 : beforePair i j i' j' → pairState l' i j a.velocity b.velocity)
    (h2 : ¬ beforePair i j i' j' → pairState l' i j b.velocity a.velocity) :
    (collisionStep i' j' l').map Shape.body = l.map Shape.body ∧
    (beforePair i j i' (j' + 1) → pairState (collisionStep i' j' l') i j a.velocity b.velocity) ∧
    (¬ beforePair i j i' (j' + 1) →
      pairState (collisionStep i' j' l') i j b.velocity a.velocity) := by
  refine ⟨(collisionStep_body l' i' j' (by omega)).trans hb, ?_⟩
  by_cases hpair : i' = i ∧ j' = j
  · obtain ⟨e1, e2⟩ := hpair
    subst e1
    subst e2
    constructor
    · intro h
      unfold beforePair at h
      omega
    · intro _
      have hs := h1 (Or.inr ⟨rfl, le_refl _⟩)
      obtain ⟨a', ha', hab⟩ := getElem?_of_map_body_eq hb hi
      obtain ⟨b', hb', hbb⟩ := getElem?_of_map_body_eq hb hj
      have hov' : overlaps a' b' := (overlaps_congr_body hab hbb).mpr hov
      have hil : i' < l'.length := by omega
      unfold pairState at hs ⊢
      rw [ha', hb'] at hs
      simp only [Option.map_some', Option.some.injEq] at hs
      rw [collisionStep_of_overlaps l' i' j' a' b' (by omega) ha' hb' hov']
      constructor
      · rw [List.getElem?_set_ne (by omega), List.getElem?_set_self hil]
        simp only [Option.map_some', Option.some.injEq]
        exact hs.2
      · rw [List.getElem?_set_self (by simpa using hj')]
        simp only [Option.map_some', Option.some.injEq]
        exact hs.1
  · have keep := collisionStep_keeps_pair l l' i j i' j' a b hij hi hj hno hb hij' hj' hpair
    have hph : beforePair i j i' (j' + 1) ↔ beforePair i j i' j' := by
      unfold beforePair
      omega
    unfold pairState at h1 h2 ⊢
    rw [keep.1, keep.2, hph]
    exact ⟨h1, h2⟩

/-- C4, amended: collision response. If the shapes at indices `i < j` pass the
collision test as the code computes it in binary32 (`overlaps`: the distance
computed from rounded differences, squares, sum and square root is strictly
less than the rounded sum of the sizes) and neither passes it with any other
shape of the collection, then after one `resolveCollisions` call the velocity
of shape `i` is the input velocity of shape `j` and the velocity of shape `j`
is the input velocity of shape `i`. -/
theorem collision_response (l : List Shape) (i j : Nat) (a b : Shape)
    (hij : i < j) (hi : l[i]? = some a) (hj : l[j]? = some b) (hov : overlaps a b)
    (hno : ∀ (k : Nat) (c : Shape), k ≠ i → k ≠ j → l[k]? = some c →
      ¬ overlaps a c ∧ ¬ overlaps b c) :
    ((DefaultCollisionResolver.resolveCollisions l)[i]?).map Shape.velocity = some b.velocity ∧
    ((DefaultCollisionResolver.resolveCollisions l)[j]?).map Shape.velocity = some a.velocity := by
  have hjl : j < l.length := (List.getElem?_eq_some_iff.mp hj).1
  unfold DefaultCollisionResolver.resolveCollisions
  have H := outerLoop_invariant
    (fun i' l' => l'.map Shape.body = l.map Shape.body ∧
      (beforePair i j i' (i' + 1) → pairState l' i j a.velocity b.velocity) ∧
      (¬ beforePair i j i' (i' + 1) → pairState l' i j b.velocity a.velocity))
    (by
      intro i' l' hi' hJ
      obtain ⟨hb, h1, h2⟩ := hJ
      have hlen : l'.length = l.length := by
        have := congrArg List.length hb
        simpa using this
      have hin := innerLoop_invariant i'
        (fun j' l'' => i' < j' ∧ l''.map Shape.body = l.map Shape.body ∧
          (beforePair i j i' j' → pairState l'' i j a.velocity b.velocity) ∧
          (¬ beforePair i j i' j' → pairState l'' i j b.velocity a.velocity))
        (fun j' l'' hj' hI => ⟨by omega,
          collisionStep_response_inv l l'' i j i' j' a b hij hi hj hov hno hI.1 hj'
            hI.2.1 hI.2.2.1 hI.2.2.2⟩)
        _ (i' + 1) l' rfl (by omega) ⟨by omega, hb, h1, h2⟩
      obtain ⟨⟨-, hb', h1', h2'⟩, -⟩ := hin
      have hph : beforePair i j (i' + 1) (i' + 1 + 1) ↔ beforePair i j i' l'.length := by
        unfold beforePair
        omega
      refine ⟨hb', ?_, ?_⟩
      · rw [hph]
        exact h1'
      · rw [hph]
        exact h2')
    _ 0 l rfl (Nat.zero_le _)
    ⟨rfl, fun _ => ⟨by simp [hi], by simp [hj]⟩, fun h => absurd (by unfold beforePair; omega) h⟩
  exact H.1.2.2 (by unfold beforePair; omega)

/-- C4, counterexample: two shapes of size 10 at (0,0) and
(12, 16777215/1048576), all binary32 values. Their centres are at Euclidean
distance strictly less than 20, but the code computes the distance 20 exactly
(the sum of the squares rounds to `400 - 2 ^ (-15)` and its square root to 20),
`20 < 20` is false and the velocities are not exchanged. -/
theorem collision_response_exact_counterexample :
    isFloat 12 ∧ isFloat (16777215 / 1048576) ∧ isFloat 10 ∧
    euclideanCloser (Shape.mk 0 0 10 0 10 0 0 0) (Shape.mk 12 (16777215 / 1048576) (-10) 0 10 0 0 0) ∧
    ¬ overlaps (Shape.mk 0 0 10 0 10 0 0 0) (Shape.mk 12 (16777215 / 1048576) (-10) 0 10 0 0 0) ∧
    DefaultCollisionResolver.resolveCollisions
      [Shape.mk 0 0 10 0 10 0 0 0, Shape.mk 12 (16777215 / 1048576) (-10) 0 10 0 0 0]
      = [Shape.mk 0 0 10 0 10 0 0 0, Shape.mk 12 (16777215 / 1048576) (-10) 0 10 0 0 0] := by
  have h : ¬ overlaps (Shape.mk 0 0 10 0 10 0 0 0)
      (Shape.mk 12 (16777215 / 1048576) (-10) 0 10 0 0 0) := by decide!
  refine ⟨by decide!, by decide!, by decide!, by decide!, h, ?_⟩
  simp [DefaultCollisionResolver.resolveCollisions, outerLoop_of_lt, outerLoop_of_ge,
    innerLoop_of_lt, innerLoop_of_ge, innerLoop_length, collisionStep, h]

/-- Witness of C4 amended: the scenario of three shapes at (10,10), (12,10) and
(500,500), all of size 5, with velocities (10,0), (-10,0) and (5,5). -/
theorem collision_response_witness :
    ((DefaultCollisionResolver.resolveCollisions
      [Shape.mk 10 10 10 0 5 0 0 0, Shape.mk 12 10 (-10) 0 5 0 0 0,
       Shape.mk 500 500 5 5 5 0 0 0])[0]?).map Shape.velocity = some (-10, 0) ∧
    ((DefaultCollisionResolver.resolveCollisions
      [Shape.mk 10 10 10 0 5 0 0 0, Shape.mk 12 10 (-10) 0 5 0 0 0,
       Shape.mk 500 500 5 5 5 0 0 0])[1]?).map Shape.velocity = some (10, 0) ∧
    (DefaultCollisionResolver.resolveCollisions
      [Shape.mk 10 10 10 0 5 0 0 0, Shape.mk 12 10 (-10) 0 5 0 0 0,
       Shape.mk 500 500 5 5 5 0 0 0]).map Shape.velocity = [(-10, 0), (10, 0), (5, 5)] := by
  have h := collision_response
    [Shape.mk 10 10 10 0 5 0 0 0, Shape.mk 12 10 (-10) 0 5 0 0 0, Shape.mk 500 500 5 5 5 0 0 0]
    0 1 (Shape.mk 10 10 10 0 5 0 0 0) (Shape.mk 12 10 (-10) 0 5 0 0 0)
    (by decide) rfl rfl (by decide!)
    (by
      intro k c h0 h1 hk
      rcases k with _ | _ | _ | k
      · exact absurd rfl h0
      · exact absurd rfl h1
      · simp only [zero_add, List.getElem?_cons_succ, List.getElem?_cons_zero,
          Option.some.injEq] at hk
        subst hk
        exact ⟨by decide!, by decide!⟩
      · simp at hk)
  have h01 : overlaps (Shape.mk 10 10 10 0 5 0 0 0) (Shape.mk 12 10 (-10) 0 5 0 0 0) := by
    decide!
  have h02 : ¬ overlaps (Shape.mk 10 10 (-10) 0 5 0 0 0) (Shape.mk 500 500 5 5 5 0 0 0) := by
    decide!
  have h12 : ¬ overlaps (Shape.mk 12 10 10 0 5 0 0 0) (Shape.mk 500 500 5 5 5 0 0 0) := by
    decide!
  refine ⟨h.1, h.2, ?_⟩
  simp [DefaultCollisionResolver.resolveCollisions, outerLoop_of_lt, outerLoop_of_ge,
    innerLoop_of_lt, innerLoop_of_ge, innerLoop_length, collisionStep, swapDx, swapDy,
    h01, h02, h12, Shape.velocity]

/-- C5, counterexample: two shapes of sizes 17 and 12 at
(13813421/32768, 4537587/1048576) and (14051577/32768, 2123489/65536), all
binary32 values. Their centres are not closer than 29 in exact arithmetic, in
either order, but the code computes the distance 15204351/524288, which is
below 29, and exchanges the velocities. -/
theorem resolveCollisions_no_overlap_exact_counterexample :
    isFloat (13813421 / 32768) ∧ isFloat (4537587 / 1048576) ∧
    isFloat (14051577 / 32768) ∧ isFloat (2123489 / 65536) ∧
    ¬ euclideanCloser (Shape.mk (13813421 / 32768) (4537587 / 1048576) 1 0 17 0 0 0)
      (Shape.mk (14051577 / 32768) (2123489 / 65536) 2 0 12 0 0 0) ∧
    ¬ euclideanCloser (Shape.mk (14051577 / 32768) (2123489 / 65536) 2 0 12 0 0 0)
      (Shape.mk (13813421 / 32768) (4537587 / 1048576) 1 0 17 0 0 0) ∧
    DefaultCollisionResolver.resolveCollisions
      [Shape.mk (13813421 / 32768) (4537587 / 1048576) 1 0 17 0 0 0,
       Shape.mk (14051577 / 32768) (2123489 / 65536) 2 0 12 0 0 0]
      = [Shape.mk (13813421 / 32768) (4537587 / 1048576) 2 0 17 0 0 0,
         Shape.mk (14051577 / 32768) (2123489 / 65536) 1 0 12 0 0 0] := by
  have h : overlaps (Shape.mk (13813421 / 32768) (4537587 / 1048576) 1 0 17 0 0 0)
      (Shape.mk (14051577 / 32768) (2123489 / 65536) 2 0 12 0 0 0) := by decide!
  refine ⟨by decide!, by decide!, by decide!, by decide!, by decide!, by decide!, ?_⟩
  simp [DefaultCollisionResolver.resolveCollisions, outerLoop_of_lt, outerLoop_of_ge,
    innerLoop_of_lt, innerLoop_of_ge, innerLoop_length, collisionStep, swapDx, swapDy, h]

/-- Witness of C5 amended: two shapes of size 5 at (10,10) and (500,500) do not
overlap, and the call returns them unchanged, twice. -/
theorem resolveCollisions_no_overlap_witness :
    DefaultCollisionResolver.resolveCollisions
      [Shape.mk 10 10 10 0 5 0 0 0, Shape.mk 500 500 5 5 5 0 0 0]
      = [Shape.mk 10 10 10 0 5 0 0 0, Shape.mk 500 500 5 5 5 0 0 0] ∧
    DefaultCollisionResolver.resolveCollisions (DefaultCollisionResolver.resolveCollisions
      [Shape.mk 10 10 10 0 5 0 0 0, Shape.mk 500 500 5 5 5 0 0 0])
      = [Shape.mk 10 10 10 0 5 0 0 0, Shape.mk 500 500 5 5 5 0 0 0] :=
  (resolveCollisions_no_overlap
    [Shape.mk 10 10 10 0 5 0 0 0, Shape.mk 500 500 5 5 5 0 0 0]).1
    (by
      intro i j a b hij hi hj
      rcases j with _ | _ | j
      · omega
      · have hi0 : i = 0 := by omega
        subst hi0
        simp only [zero_add, List.getElem?_cons_succ, List.getElem?_cons_zero,
          Option.some.injEq] at hi hj
        subst hi
        subst hj
        decide!
      · simp at hj)

/-! ### Sandbox.update -/

/-- C8: order of `Sandbox.update`. The collection after `update dt` is
`resolveCollisions` applied to the collection in which every shape has moved;
every shape's position after `update dt` is its position after `move dt` alone;
and for a collection of two shapes the velocities are exchanged exactly when the
moved shapes overlap. -/
theorem update_order :
    (∀ (shapes : List Shape) (dt : ℚ),
      (Sandbox.update { shapes := shapes, resolver := defaultResolver } dt).shapes
        = DefaultCollisionResolver.resolveCollisions (shapes.map fun s => s.move dt)) ∧
    (∀ (shapes : List Shape) (dt : ℚ) (k : Nat),
      ((Sandbox.update { shapes := shapes, resolver := defaultResolver } dt).shapes[k]?).map
          (fun s => (s.x, s.y))
        = (shapes[k]?).map (fun s => ((s.move dt).x, (s.move dt).y))) ∧
    (∀ (a b : Shape) (dt : ℚ),
      (Sandbox.update { shapes := [a, b], resolver := defaultResolver } dt).shapes
        = if overlaps (a.move dt) (b.move dt) then
            [{ a.move dt with dx := (b.move dt).dx, dy := (b.move dt).dy },
             { b.move dt with dx := (a.move dt).dx, dy := (a.move dt).dy }]
          else [a.move dt, b.move dt]) := by
  have h1 : ∀ (shapes : List Shape) (dt : ℚ),
      (Sandbox.update { shapes := shapes, resolver := defaultResolver } dt).shapes
        = DefaultCollisionResolver.resolveCollisions (shapes.map fun s => s.move dt) := by
    intro shapes dt
    rfl
  refine ⟨h1, ?_, ?_⟩
  · intro shapes dt k
    rw [h1]
    have hb := resolveCollisions_getElem?_body (shapes.map fun s => s.move dt) k
    have hproj : ∀ o : Option Shape,
        o.map (fun s => (s.x, s.y)) = (o.map Shape.body).map (fun t => (t.1, t.2.1)) := by
      intro o
      cases o <;> rfl
    rw [hproj, hb, List.getElem?_map]
    cases shapes[k]? <;> rfl
  · intro a b dt
    rw [h1]
    by_cases hov : overlaps (a.move dt) (b.move dt)
    · rw [if_pos hov]
      simp [DefaultCollisionResolver.resolveCollisions, outerLoop_of_lt, outerLoop_of_ge,
        innerLoop_of_lt, innerLoop_of_ge, innerLoop_length, collisionStep, swapDx, swapDy, hov]
    · rw [if_neg hov]
      simp [DefaultCollisionResolver.resolveCollisions, outerLoop_of_lt, outerLoop_of_ge,
        innerLoop_of_lt, innerLoop_of_ge, innerLoop_length, collisionStep, hov]

/-! ### Order sensitivity -/

/-- C9: order sensitivity of `resolveCollisions`. For three mutually
overlapping shapes A, B, C, in the order (A, B, C) shape A ends with the
velocity of C, and in the order (B, A, C) shape A ends with its own velocity; so
there are a collection and a reordering of it in which one shape ends with
different velocities. -/
theorem resolveCollisions_order_sensitive :
    (∀ A B C : Shape, overlaps A B → overlaps A C → overlaps B C →
      ((DefaultCollisionResolver.resolveCollisions [A, B, C])[0]?).map Shape.velocity
        = some C.velocity ∧
      ((DefaultCollisionResolver.resolveCollisions [B, A, C])[1]?).map Shape.velocity
        = some A.velocity) ∧
    (∃ (l l' : List Shape) (k k' : Nat) (s : Shape), l.Perm l' ∧
      l[k]? = some s ∧ l'[k']? = some s ∧
      ((DefaultCollisionResolver.resolveCollisions l)[k]?).map Shape.velocity
        ≠ ((DefaultCollisionResolver.resolveCollisions l')[k']?).map Shape.velocity) := by
  have gen : ∀ A B C : Shape, overlaps A B → overlaps A C → overlaps B C →
      ((DefaultCollisionResolver.resolveCollisions [A, B, C])[0]?).map Shape.velocity
        = some C.velocity ∧
      ((DefaultCollisionResolver.resolveCollisions [B, A, C])[1]?).map Shape.velocity
        = some A.velocity := by
    intro A B C hAB hAC hBC
    have hBA : overlaps B A := (overlaps_comm A B).mp hAB
    unfold overlaps at hAB hAC hBC hBA
    constructor
    · simp [DefaultCollisionResolver.resolveCollisions, outerLoop_of_lt, outerLoop_of_ge,
        innerLoop_of_lt, innerLoop_of_ge, innerLoop_length, collisionStep, swapDx, swapDy,
        overlaps, hAB, hAC, hBC, Shape.velocity]
    · simp [DefaultCollisionResolver.resolveCollisions, outerLoop_of_lt, outerLoop_of_ge,
        innerLoop_of_lt, innerLoop_of_ge, innerLoop_length, collisionStep, swapDx, swapDy,
        overlaps, hBA, hAC, hBC, Shape.velocity]
  refine ⟨gen, ?_⟩
  have hAB : overlaps (Shape.mk 10 10 1 0 5 0 0 0) (Shape.mk 11 10 2 0 5 0 0 0) := by
    decide!
  have hAC : overlaps (Shape.mk 10 10 1 0 5 0 0 0) (Shape.mk 12 10 3 0 5 0 0 0) := by
    decide!
  have hBC : overlaps (Shape.mk 11 10 2 0 5 0 0 0) (Shape.mk 12 10 3 0 5 0 0 0) := by
    decide!
  have h := gen _ _ _ hAB hAC hBC
  refine ⟨[Shape.mk 10 10 1 0 5 0 0 0, Shape.mk 11 10 2 0 5 0 0 0, Shape.mk 12 10 3 0 5 0 0 0],
    [Shape.mk 11 10 2 0 5 0 0 0, Shape.mk 10 10 1 0 5 0 0 0, Shape.mk 12 10 3 0 5 0 0 0],
    0, 1, Shape.mk 10 10 1 0 5 0 0 0, List.Perm.swap _ _ _, rfl, rfl, ?_⟩
  rw [h.1, h.2]
  norm_num [Shape.velocity]

/-- Witness of C9: three shapes of size 5 at (10,10), (11,10), (12,10) with
velocities (1,0), (2,0), (3,0). In the order (A, B, C) shape A ends with (3,0); in
the order (B, A, C) it ends with (1,0). -/
theorem resolveCollisions_order_sensitive_witness :
    ((DefaultCollisionResolver.resolveCollisions
      [Shape.mk 10 10 1 0 5 0 0 0, Shape.mk 11 10 2 0 5 0 0 0,
       Shape.mk 12 10 3 0 5 0 0 0])[0]?).map Shape.velocity = some (3, 0) ∧
    ((DefaultCollisionResolver.resolveCollisions
      [Shape.mk 11 10 2 0 5 0 0 0, Shape.mk 10 10 1 0 5 0 0 0,
       Shape.mk 12 10 3 0 5 0 0 0])[1]?).map Shape.velocity = some (1, 0) :=
  resolveCollisions_order_sensitive.1
    (Shape.mk 10 10 1 0 5 0 0 0) (Shape.mk 11 10 2 0 5 0 0 0) (Shape.mk 12 10 3 0 5 0 0 0)
    (by decide!) (by decide!) (by decide!)

/-! ### The key commands and the collection of the Sandbox -/

theorem generate_length (RAND_MAX : Nat) (draws : Nat → Draws) (n : Nat) (sb : Sandbox) :
    ((List.range n).foldl
      (fun acc k => { acc with shapes := acc.shapes ++ [spawnShape RAND_MAX (draws k)] })
      sb).shapes.length = sb.shapes.length + n := by
  induction n with
  | zero => rfl
  | succ n ih =>
    rw [List.range_succ, List.foldl_append, List.foldl_cons, List.foldl_nil]
    simp only [List.length_append, List.length_singleton]
    rw [ih]
    omega

theorem generate_resolver (RAND_MAX : Nat) (draws : Nat → Draws) (ks : List Nat) :
    ∀ sb : Sandbox, (ks.foldl
      (fun acc k => { acc with shapes := acc.shapes ++ [spawnShape RAND_MAX (draws k)] })
      sb).resolver = sb.resolver := by
  induction ks with
  | nil =>
    intro sb
    rfl
  | cons k ks ih =>
    intro sb
    rw [List.foldl_cons, ih]

theorem update_length (sb : Sandbox) (dt : ℚ) (h : sb.resolver = defaultResolver) :
    (sb.update dt).shapes.length = sb.shapes.length := by
  unfold Sandbox.update Sandbox.updateShapes
  simp only [h, defaultResolver, resolveCollisions_length, List.length_map]

/-- C7, as the code behaves: the key callback never changes the collection of
the Sandbox. From the state in which the main loop starts (100 generated shapes
in the Sandbox, file-scope vector empty), an UP key press appends the new shape
to the file-scope vector only; the frame that handles it still integrates and
draws 100 shapes. A DOWN key likewise leaves the Sandbox alone. -/
theorem key_commands_miss_sandbox (RAND_MAX : Nat) (draws : Nat → Draws) (d : Draws)
    (dt : ℚ) :
    (∀ (key action : Int) (p : Program),
      (glfw_onKeyPressed RAND_MAX d key action p).sandbox = p.sandbox) ∧
    (Program.started RAND_MAX draws).sandbox.shapes.length = 100 ∧
    (glfw_onKeyPressed RAND_MAX d GLFW_KEY_UP GLFW_PRESS
      (Program.started RAND_MAX draws)).shapes.length = 1 ∧
    (glfw_onKeyPressed RAND_MAX d GLFW_KEY_UP GLFW_PRESS
      (Program.started RAND_MAX draws)).sandbox.shapes.length = 100 ∧
    (frame RAND_MAX [⟨GLFW_KEY_UP, GLFW_PRESS, d⟩] dt
      (Program.started RAND_MAX draws)).1.sandbox.shapes.length = 100 ∧
    (frame RAND_MAX [⟨GLFW_KEY_UP, GLFW_PRESS, d⟩] dt
      (Program.started RAND_MAX draws)).2.length = 100 := by
  have hkeep : ∀ (key action : Int) (p : Program),
      (glfw_onKeyPressed RAND_MAX d key action p).sandbox = p.sandbox := by
    intro key action p
    unfold glfw_onKeyPressed
    split_ifs <;> rfl
  have hgen : (Program.started RAND_MAX draws).sandbox.shapes.length = 100 := by
    unfold Program.started Sandbox.generate
    simp only [generate_length]
    rfl
  have hres : (Program.started RAND_MAX draws).sandbox.resolver = defaultResolver := by
    unfold Program.started Sandbox.generate
    simp only [generate_resolver]
    rfl
  have hframe : (frame RAND_MAX [⟨GLFW_KEY_UP, GLFW_PRESS, d⟩] dt
      (Program.started RAND_MAX draws)).1.sandbox.shapes.length = 100 := by
    simp only [frame, pollEvents, List.foldl_cons, List.foldl_nil]
    rw [hkeep, update_length _ _ hres, hgen]
  refine ⟨hkeep, hgen, ?_, ?_, hframe, ?_⟩
  · unfold glfw_onKeyPressed
    rw [if_pos (Or.inl rfl), if_pos rfl]
    rfl
  · rw [hkeep, hgen]
  · have h2 : (frame RAND_MAX [⟨GLFW_KEY_UP, GLFW_PRESS, d⟩] dt
        (Program.started RAND_MAX draws)).2
        = (frame RAND_MAX [⟨GLFW_KEY_UP, GLFW_PRESS, d⟩] dt
          (Program.started RAND_MAX draws)).1.sandbox.drawShapes := rfl
    rw [h2]
    unfold Sandbox.drawShapes
    rw [List.length_map, hframe]

/-! ### Spawn velocities -/

end SimulationSandbox
